import Mathlib

set_option linter.unusedVariables false

/-!
Verification of the tangent-finding core of `turf-polygon-tangents`
(`src/packages/turf-polygon-tangents/index.ts`), shallowly embedded with
exact integer arithmetic in place of IEEE doubles (every concrete
scenario of the specification is integer-valued, and the algebraic facts
proved below hold over any linearly ordered commutative ring, so nothing
depends on the narrowing).  JavaScript values
that are not coordinate pairs (`undefined` from an out-of-range array
index, `NaN` from arithmetic on a non-numeric value) are modelled by
`Option`: `none` stands for `undefined`/`NaN`, and every numeric
comparison against such a value is `false`, as in IEEE semantics.
-/

/-- A 2D coordinate pair.  The source stores coordinates as 2-element
arrays (`Position`); we model them as a structure with named fields. -/
structure Point2D where
  x : ℤ
  y : ℤ
deriving DecidableEq, Repr

/-- Translation of `isLeft(point1, point2, point3)`:
`(p2.x − p1.x)·(p3.y − p1.y) − (p3.x − p1.x)·(p2.y − p1.y)`. -/
def isLeft (point1 point2 point3 : Point2D) : ℤ :=
  (point2.x - point1.x) * (point3.y - point1.y) -
    (point3.x - point1.x) * (point2.y - point1.y)

/-- Translation of `isAbove`: `isLeft(point1, point2, point3) > 0`. -/
def isAbove (point1 point2 point3 : Point2D) : Bool :=
  decide (0 < isLeft point1 point2 point3)

/-- Translation of `isBelow`: `isLeft(point1, point2, point3) < 0`. -/
def isBelow (point1 point2 point3 : Point2D) : Bool :=
  decide (isLeft point1 point2 point3 < 0)

/-- `isBelow` applied to a possibly-undefined third point: with no point
the comparison involves a non-number and is `false`. -/
def isBelowO (point1 point2 : Point2D) : Option Point2D → Bool
  | some point3 => isBelow point1 point2 point3
  | none => false

/-- `isAbove` applied to a possibly-undefined third point. -/
def isAboveO (point1 point2 : Point2D) : Option Point2D → Bool
  | some point3 => isAbove point1 point2 point3
  | none => false

/-- The test `eprev <= 0` where `eprev` may be `NaN` (modelled `none`):
any comparison with `NaN` is `false`. -/
def eprevLE0 : Option ℤ → Bool
  | some e => decide (e ≤ 0)
  | none => false

/-- The test `eprev > 0` where `eprev` may be `NaN` (modelled `none`). -/
def eprevGT0 : Option ℤ → Bool
  | some e => decide (0 < e)
  | none => false

/-- The running state of the boundary sweep: the previous edge
orientation and the two tangent candidates. -/
structure SweepSt where
  eprev : Option ℤ
  rtan : Option Point2D
  ltan : Option Point2D
deriving DecidableEq, Repr

/-- One iteration of the loop body of `processPolygon`, applied to the
edge `(currentCoords, nextCoordPair)`. -/
def stepEdge (ptCoords : Point2D) (st : SweepSt) (edge : Point2D × Point2D) : SweepSt :=
  let currentCoords := edge.1
  let enext := isLeft currentCoords edge.2 ptCoords
  let st1 :=
    if eprevLE0 st.eprev && decide (0 < enext) then
      if !(isBelowO ptCoords currentCoords st.rtan) then { st with rtan := some currentCoords }
      else st
    else if eprevGT0 st.eprev && decide (enext ≤ 0) then
      if !(isAboveO ptCoords currentCoords st.ltan) then { st with ltan := some currentCoords }
      else st
    else st
  { st1 with eprev := some enext }

/-- The indexed `for` loop of `processPolygon`: at index `i` the current
vertex is `polygonCoords[i]` and the next one is `polygonCoords[i+1]`,
except at the last index, where it wraps to `polygonCoords[0]`.  The
first argument is the remaining number of iterations. -/
def tangentLoop (polygonCoords : List Point2D) (ptCoords : Point2D) :
    ℕ → ℕ → SweepSt → SweepSt
  | 0, _, st => st
  | fuel + 1, i, st =>
    match polygonCoords.get? i with
    | none => st
    | some currentCoords =>
      let nextCoordPair :=
        if i = polygonCoords.length - 1 then polygonCoords.getD 0 currentCoords
        else polygonCoords.getD (i + 1) currentCoords
      tangentLoop polygonCoords ptCoords fuel (i + 1)
        (stepEdge ptCoords st (currentCoords, nextCoordPair))

/-- Translation of `processPolygon(polygonCoords, ptCoords, eprev, rtan, ltan)`. -/
def processPolygon (polygonCoords : List Point2D) (ptCoords : Point2D)
    (eprev : Option ℤ) (rtan ltan : Option Point2D) :
    Option Point2D × Option Point2D :=
  let st := tangentLoop polygonCoords ptCoords polygonCoords.length 0
    ⟨eprev, rtan, ltan⟩
  (st.rtan, st.ltan)

/-- The list of edges the sweep visits, in order: vertex `i` paired with
vertex `i+1`, the last vertex paired with vertex `0`. -/
def ringEdges : List Point2D → List (Point2D × Point2D)
  | [] => []
  | c :: cs => (c :: cs).zip (cs ++ [c])

/-- A geometry is a polygon (a list of rings, the first being the outer
one) or a multipolygon (a list of polygons). -/
inductive Geometry where
  | polygon (coords : List (List Point2D))
  | multiPolygon (coords : List (List (List Point2D)))
deriving DecidableEq, Repr

/-- Modelled from the spec: the `explode` / `allVertices` collaborator
(absent from `src/`) flattens every stored vertex of the geometry in
traversal order — rings of a polygon in order (outer ring first), then
polygons of a multipolygon in input order. -/
def geomCoordsFlat : Geometry → List Point2D
  | .polygon rings => rings.flatten
  | .multiPolygon polys => (polys.map List.flatten).flatten

/-- Modelled from the spec: the `bbox` collaborator (absent from
`src/`) returns the axis-aligned extent `(minX, minY, maxX, maxY)` of
all stored vertices. -/
def bboxOf (g : Geometry) : ℤ × ℤ × ℤ × ℤ :=
  match geomCoordsFlat g with
  | [] => (0, 0, 0, 0)
  | p :: ps =>
    (ps.foldl (fun m q => min m q.x) p.x,
     ps.foldl (fun m q => min m q.y) p.y,
     ps.foldl (fun m q => max m q.x) p.x,
     ps.foldl (fun m q => max m q.y) p.y)

/-- The bounding-box test of `polygonTangents`:
`pt.x > bbox[0] && pt.x < bbox[2] && pt.y > bbox[1] && pt.y < bbox[3]`,
strict on both axes. -/
def insideBBox (pt : Point2D) (g : Geometry) : Bool :=
  let b := bboxOf g
  decide (b.1 < pt.x) && decide (pt.x < b.2.2.1) &&
    decide (b.2.1 < pt.y) && decide (pt.y < b.2.2.2)

/-- Squared Euclidean distance; it induces the same nearest-vertex
choice as the distance itself. -/
def distSq (a b : Point2D) : ℤ :=
  (b.x - a.x) * (b.x - a.x) + (b.y - a.y) * (b.y - a.y)

/-- Modelled from the spec: the scan of the `nearestPoint` collaborator
(absent from `src/`), keeping the first strictly closer vertex; `none`
is the initial infinite best distance. -/
def nearestLoop (pt : Point2D) : List Point2D → ℕ → ℕ → Option ℤ → ℕ
  | [], _, best, _ => best
  | p :: ps, i, best, bestD =>
    let d := distSq pt p
    let better := match bestD with
      | none => true
      | some b => decide (d < b)
    if better then nearestLoop pt ps (i + 1) i (some d)
    else nearestLoop pt ps (i + 1) best bestD

/-- Modelled from the spec: index of the vertex nearest to `pt` in the
flattened vertex list, ties broken by first occurrence. -/
def nearestIdx (pt : Point2D) (pts : List Point2D) : ℕ :=
  nearestLoop pt pts 0 0 none

/-- The inner `for` loop of the MultiPolygon branch: scan one ring,
setting `closestVertex := i2` before testing
`verticesCounted === nearestPtIndex`.  Arguments: remaining iterations,
`i2`, `verticesCounted`, current `closestVertex`; returns the updated
`closestVertex`, `verticesCounted` and the `verticeFound` flag. -/
def innerLook (target : ℕ) : ℕ → ℕ → ℕ → ℕ → ℕ × ℕ × Bool
  | 0, _, counted, cv => (cv, counted, false)
  | rem + 1, i2, counted, _ =>
    if counted = target then (i2, counted, true)
    else innerLook target rem (i2 + 1) (counted + 1) i2

/-- The outer `for` loop of the MultiPolygon branch.  Note that, as in
the source, it walks `polyCoords[0][i]` — the rings of the *first*
polygon — setting `closestFeature := i` at each iteration.  Arguments:
remaining rings, `i`, current `closestFeature`, current `closestVertex`,
`verticesCounted`; returns `(closestFeature, closestVertex)`. -/
def outerLook (target : ℕ) : List (List Point2D) → ℕ → ℕ → ℕ → ℕ → ℕ × ℕ
  | [], _, cf, cv, _ => (cf, cv)
  | ring :: rest, i, _, cv, counted =>
    let r := innerLook target ring.length 0 counted cv
    if r.2.2 then (i, r.1) else outerLook target rest (i + 1) i r.1 r.2.1

/-- The seed vertex of the MultiPolygon branch:
`polyCoords[0][closestFeature][closestVertex]`, as a total lookup. -/
def multiSeed (nearestPtIndex : ℕ) (polyCoords : List (List (List Point2D))) :
    Option Point2D :=
  let firstPoly := polyCoords.headD []
  let r := outerLook nearestPtIndex firstPoly 0 0 0 0
  (firstPoly.get? r.1).bind fun ring => ring.get? r.2

/-- Translation of `polygonTangents(pt, polygon)`.  In the MultiPolygon
branch the source seeds `eprev` with
`isLeft(polyCoords[0][0], polyCoords[0][0][last], pointCoords)`: the
first argument is the first *ring* (an array of positions) rather than a
position, so every coordinate subtraction in `isLeft` is applied to a
non-number and the seed is `NaN`; it is modelled as `none`, which
compares `false` against every bound. -/
def polygonTangents (pt : Point2D) (g : Geometry) : Option Point2D × Option Point2D :=
  let inside := insideBBox pt g
  let flat := geomCoordsFlat g
  let nearestPtIndex := if inside then nearestIdx pt flat else 0
  let nearest : Option Point2D := if inside then flat.get? (nearestIdx pt flat) else none
  match g with
  | .polygon polyCoords =>
    let outer := polyCoords.headD []
    let rtan := outer.get? nearestPtIndex
    let ltan :=
      match nearest with
      | some np => if np.y < pt.y then outer.get? nearestPtIndex else outer.get? 0
      | none => outer.get? 0
    let eprev : Option ℤ :=
      match outer.get? 0, outer.get? (outer.length - 1) with
      | some a, some b => some (isLeft a b pt)
      | _, _ => none
    processPolygon outer pt eprev rtan ltan
  | .multiPolygon polyCoords =>
    let seed := multiSeed nearestPtIndex polyCoords
    let eprev : Option ℤ := none
    polyCoords.foldl
      (fun s poly => processPolygon (poly.headD []) pt eprev s.1 s.2)
      (seed, seed)

/-! ### The indexed loop visits exactly the cyclic edge list -/

theorem length_ringEdges (coords : List Point2D) :
    (ringEdges coords).length = coords.length := by
  cases coords with
  | nil => rfl
  | cons c cs => simp [ringEdges]

theorem ringEdges_getElem? (coords : List Point2D) (i : ℕ) (h : i < coords.length) :
    (ringEdges coords)[i]? =
      some ((coords[i]?).getD ⟨0, 0⟩,
        if i = coords.length - 1 then (coords[0]?).getD ⟨0, 0⟩
        else (coords[i + 1]?).getD ⟨0, 0⟩) := by
  match coords with
  | [] => simp at h
  | c :: cs =>
    rw [ringEdges, List.zip_eq_zipWith, List.getElem?_zipWith]
    by_cases hl : i = cs.length
    · subst hl
      rw [List.getElem?_concat_length]
      simp
    · have hi : i < cs.length := by
        simp only [List.length_cons] at h
        omega
      rw [List.getElem?_append_left hi]
      have hne : ¬ i = (c :: cs).length - 1 := by
        simp only [List.length_cons]
        omega
      simp [hne, hl, List.getElem?_eq_getElem h, List.getElem?_eq_getElem hi]

theorem tangentLoop_eq_drop (coords : List Point2D) (pt : Point2D) :
    ∀ (k i : ℕ) (st : SweepSt), coords.length = i + k →
      tangentLoop coords pt k i st =
        ((ringEdges coords).drop i).foldl (stepEdge pt) st := by
  intro k
  induction k with
  | zero =>
    intro i st h
    rw [tangentLoop, List.drop_eq_nil_of_le (by rw [length_ringEdges]; omega)]
    rfl
  | succ k ih =>
    intro i st h
    have hi : i < coords.length := by omega
    have hre : i < (ringEdges coords).length := by rw [length_ringEdges]; omega
    have hcur : coords.get? i = some (coords.get ⟨i, hi⟩) := by
      simp [List.get?_eq_getElem?, List.getElem?_eq_getElem hi]
    simp only [tangentLoop, hcur]
    rw [List.drop_eq_getElem_cons hre, List.foldl_cons]
    rw [ih (i + 1) _ (by omega)]
    congr 1
    have hedge := ringEdges_getElem? coords i hi
    rw [List.getElem?_eq_getElem hre] at hedge
    have hedge' : (ringEdges coords)[i] =
        ((coords[i]?).getD ⟨0, 0⟩,
          if i = coords.length - 1 then (coords[0]?).getD ⟨0, 0⟩
          else (coords[i + 1]?).getD ⟨0, 0⟩) := by
      simpa using hedge
    rw [hedge']
    congr 1
    rw [Prod.ext_iff]
    refine ⟨by simp [List.getElem?_eq_getElem hi], ?_⟩
    by_cases hlast : i = coords.length - 1
    · have h0 : 0 < coords.length := by omega
      simp [hlast, List.getElem?_eq_getElem h0]
    · have hs : i + 1 < coords.length := by omega
      simp [hlast, List.getElem?_eq_getElem hs]

theorem processPolygon_eq_foldl (coords : List Point2D) (pt : Point2D)
    (e : Option ℤ) (r l : Option Point2D) :
    processPolygon coords pt e r l =
      (((ringEdges coords).foldl (stepEdge pt) ⟨e, r, l⟩).rtan,
       ((ringEdges coords).foldl (stepEdge pt) ⟨e, r, l⟩).ltan) := by
  unfold processPolygon
  rw [tangentLoop_eq_drop coords pt coords.length 0 _ (by omega)]
  rfl

/-! ### The sweep as described by the specification (claim C2) -/

/-- The update rule for one edge, written from the specification's
words: compute `enext = orientation(current, next, referencePoint)`;
when `eprev ≤ 0` and `enext > 0` replace `rtan` with `current` unless
`isBelow(referencePoint, current, rtan)` holds; when `eprev > 0` and
`enext ≤ 0` replace `ltan` with `current` unless
`isAbove(referencePoint, current, ltan)` holds; in every other case
leave both candidates unchanged; after the edge set `eprev` to `enext`. -/
def stepSpec (referencePoint : Point2D) (st : SweepSt) (current next : Point2D) : SweepSt :=
  let enext := isLeft current next referencePoint
  let updated :=
    if eprevLE0 st.eprev && decide (0 < enext) then
      { st with
        rtan := if isBelowO referencePoint current st.rtan then st.rtan else some current }
    else if eprevGT0 st.eprev && decide (enext ≤ 0) then
      { st with
        ltan := if isAboveO referencePoint current st.ltan then st.ltan else some current }
    else st
  { updated with eprev := some enext }

/-- The sweep as described: process the edges in order, applying the
update rule, and return the state after the last edge. -/
def sweepRingSpec (referencePoint : Point2D) :
    List (Point2D × Point2D) → SweepSt → SweepSt
  | [], st => st
  | e :: es, st => sweepRingSpec referencePoint es (stepSpec referencePoint st e.1 e.2)

/-- The edge list as described: edge `i` connects vertex `i` to vertex
`i + 1`, with the last edge wrapping to vertex `0`. -/
def edgesSpec (coords : List Point2D) : List (Point2D × Point2D) :=
  (List.range coords.length).map fun i =>
    (coords.getD i ⟨0, 0⟩, coords.getD ((i + 1) % coords.length) ⟨0, 0⟩)

theorem stepSpec_eq_stepEdge (pt : Point2D) (st : SweepSt) (c n : Point2D) :
    stepSpec pt st c n = stepEdge pt st (c, n) := by
  unfold stepSpec stepEdge
  cases hb : isBelowO pt c st.rtan <;> cases ha : isAboveO pt c st.ltan <;>
    simp [hb, ha]

theorem sweepRingSpec_eq_foldl (pt : Point2D) :
    ∀ (es : List (Point2D × Point2D)) (st : SweepSt),
      sweepRingSpec pt es st = es.foldl (stepEdge pt) st := by
  intro es
  induction es with
  | nil => intro st; rfl
  | cons e es ih =>
    intro st
    rw [sweepRingSpec, List.foldl_cons, stepSpec_eq_stepEdge, ih]

theorem edgesSpec_eq_ringEdges (coords : List Point2D) :
    edgesSpec coords = ringEdges coords := by
  apply List.ext_getElem?
  intro n
  by_cases h : n < coords.length
  · rw [ringEdges_getElem? coords n h, edgesSpec, List.getElem?_map,
      List.getElem?_range h]
    simp only [Option.map_some']
    congr 2
    · simp
    by_cases hlast : n = coords.length - 1
    · subst hlast
      have h0 : (coords.length - 1 + 1) % coords.length = 0 := by
        have hh : coords.length - 1 + 1 = coords.length := by omega
        simp [hh]
      simp [h0]
    · have : (n + 1) % coords.length = n + 1 := Nat.mod_eq_of_lt (by omega)
      simp [hlast, this]
  · have h1 : (edgesSpec coords).length = coords.length := by
      simp [edgesSpec]
    have h2 : (ringEdges coords).length = coords.length := length_ringEdges coords
    rw [List.getElem?_eq_none (by omega), List.getElem?_eq_none (by omega)]

/-- Claim C2: for every ring, reference point, incoming orientation
state `eprev` and seed candidates `(rtan, ltan)`, `processPolygon` is
exactly the in-order sweep over the ring's edges (edge `i` joining
vertex `i` to vertex `(i+1) mod n`) that computes
`enext = orientation(current, next, referencePoint)` for each edge,
replaces `rtan` with `current` when `eprev ≤ 0 < enext` unless
`isBelow(referencePoint, current, rtan)` holds, replaces `ltan` with
`current` when `eprev > 0 ≥ enext` unless
`isAbove(referencePoint, current, ltan)` holds, otherwise changes
nothing, sets `eprev := enext` after each edge, and returns the final
pair after the last edge. -/
theorem claim_C2_sweep (coords : List Point2D) (pt : Point2D)
    (e : Option ℤ) (r l : Option Point2D) :
    processPolygon coords pt e r l =
      ((sweepRingSpec pt (edgesSpec coords) ⟨e, r, l⟩).rtan,
       (sweepRingSpec pt (edgesSpec coords) ⟨e, r, l⟩).ltan) := by
  rw [processPolygon_eq_foldl, sweepRingSpec_eq_foldl, edgesSpec_eq_ringEdges]

/-! ### The degenerate closing edge (claim C5) -/

theorem ringEdges_closed (c0 : Point2D) (ms : List Point2D) :
    ringEdges (c0 :: (ms ++ [c0])) =
      ((c0 :: ms).zip (ms ++ [c0])) ++ [(c0, c0)] := by
  rw [ringEdges]
  have hsplit : c0 :: (ms ++ [c0]) = (c0 :: ms) ++ [c0] := by simp
  rw [hsplit, List.zip_append (by simp)]
  rfl

theorem isLeft_self_left (c0 pt : Point2D) : isLeft c0 c0 pt = 0 := by
  simp [isLeft]

/-- Claim C5 (amended): on a ring whose stored last vertex repeats its
first vertex, the zero-length closing edge contributes orientation zero
and never changes `rtan`; however it does fire the left-tangent rule
when the orientation state reaching it is positive, replacing `ltan`
with the duplicated first vertex unless
`isAbove(referencePoint, firstVertex, ltan)` holds. -/
theorem claim_C5_amended (c0 : Point2D) (ms : List Point2D) (pt : Point2D)
    (e : Option ℤ) (r l : Option Point2D) :
    isLeft c0 c0 pt = 0 ∧
    processPolygon (c0 :: (ms ++ [c0])) pt e r l =
      ((((c0 :: ms).zip (ms ++ [c0])).foldl (stepEdge pt) ⟨e, r, l⟩).rtan,
       if eprevGT0 ((((c0 :: ms).zip (ms ++ [c0])).foldl (stepEdge pt) ⟨e, r, l⟩).eprev)
           && !(isAboveO pt c0
                ((((c0 :: ms).zip (ms ++ [c0])).foldl (stepEdge pt) ⟨e, r, l⟩).ltan)) then
         some c0
       else (((c0 :: ms).zip (ms ++ [c0])).foldl (stepEdge pt) ⟨e, r, l⟩).ltan) := by
  refine ⟨isLeft_self_left c0 pt, ?_⟩
  rw [processPolygon_eq_foldl, ringEdges_closed, List.foldl_append,
    List.foldl_cons, List.foldl_nil]
  set st := ((c0 :: ms).zip (ms ++ [c0])).foldl (stepEdge pt) ⟨e, r, l⟩
  cases hg : eprevGT0 st.eprev <;> cases ha : isAboveO pt c0 st.ltan <;>
    simp [stepEdge, isLeft_self_left, hg, ha]

/-- Claim C5 (counterexample): on the closed triangle ring
`(0,0), (4,0), (0,4), (0,0)` with reference point `(1,1)`, incoming
state `eprev = 0`, `rtan = (4,0)`, `ltan = (2,2)`, the sweep state just
before the closing edge has `ltan = (2,2)`, but after the zero-length
closing edge `ltan = (0,0)`: the closing edge does trigger an update,
refuting the claim that it never does. -/
theorem claim_C5_counterexample :
    ringEdges [⟨0, 0⟩, ⟨4, 0⟩, ⟨0, 4⟩, ⟨0, 0⟩] =
        [(⟨0, 0⟩, ⟨4, 0⟩), (⟨4, 0⟩, ⟨0, 4⟩), (⟨0, 4⟩, ⟨0, 0⟩)] ++
          [(⟨0, 0⟩, ⟨0, 0⟩)] ∧
    (([(⟨0, 0⟩, ⟨4, 0⟩), (⟨4, 0⟩, ⟨0, 4⟩), (⟨0, 4⟩, ⟨0, 0⟩)] :
        List (Point2D × Point2D)).foldl
      (stepEdge ⟨1, 1⟩) ⟨some 0, some ⟨4, 0⟩, some ⟨2, 2⟩⟩).ltan = some ⟨2, 2⟩ ∧
    (processPolygon [⟨0, 0⟩, ⟨4, 0⟩, ⟨0, 4⟩, ⟨0, 0⟩] ⟨1, 1⟩ (some 0)
        (some ⟨4, 0⟩) (some ⟨2, 2⟩)).2 = some ⟨0, 0⟩ := by
  exact ⟨by decide, by decide, by decide⟩

/-- Claim C7: the orientation predicate returns exactly
`(p2.x − p1.x)·(p3.y − p1.y) − (p3.x − p1.x)·(p2.y − p1.y)`;
`isAbove` holds exactly when it is strictly positive, `isBelow` exactly
when it is strictly negative, and a collinear triple is neither. -/
theorem claim_C7_orientation (p1 p2 p3 : Point2D) :
    isLeft p1 p2 p3 =
        (p2.x - p1.x) * (p3.y - p1.y) - (p3.x - p1.x) * (p2.y - p1.y) ∧
    (isAbove p1 p2 p3 = true ↔ 0 < isLeft p1 p2 p3) ∧
    (isBelow p1 p2 p3 = true ↔ isLeft p1 p2 p3 < 0) ∧
    (isLeft p1 p2 p3 = 0 → isAbove p1 p2 p3 = false ∧ isBelow p1 p2 p3 = false) := by
  refine ⟨rfl, by simp [isAbove], by simp [isBelow], fun h => ?_⟩
  simp [isAbove, isBelow, h]

/-- Claim C7 (witness): the collinear triple `(0,0), (1,0), (2,0)` is
neither above nor below. -/
theorem claim_C7_witness :
    isLeft ⟨0, 0⟩ ⟨1, 0⟩ ⟨2, 0⟩ = 0 ∧
    isAbove ⟨0, 0⟩ ⟨1, 0⟩ ⟨2, 0⟩ = false ∧
    isBelow ⟨0, 0⟩ ⟨1, 0⟩ ⟨2, 0⟩ = false := by
  have h := (claim_C7_orientation ⟨0, 0⟩ ⟨1, 0⟩ ⟨2, 0⟩).2.2.2 (by decide)
  exact ⟨by decide, h.1, h.2⟩

/-- Claim C8: for the closed square `(0,0), (4,0), (4,4), (0,4), (0,0)`
and reference point `(8,2)` (outside the bounding box), the right
tangent is `(4,4)` and the left tangent is `(4,0)`. -/
theorem claim_C8_square :
    polygonTangents ⟨8, 2⟩
        (Geometry.polygon [[⟨0, 0⟩, ⟨4, 0⟩, ⟨4, 4⟩, ⟨0, 4⟩, ⟨0, 0⟩]]) =
      (some ⟨4, 4⟩, some ⟨4, 0⟩) := by decide

/-! ### Reflection across the x-axis (claim C9) -/

/-- Negate the y-coordinate of a point. -/
def reflectP (p : Point2D) : Point2D := ⟨p.x, -p.y⟩

/-- Reflect a whole geometry across the x-axis. -/
def reflectGeom : Geometry → Geometry
  | .polygon rings => .polygon (rings.map (List.map reflectP))
  | .multiPolygon polys => .multiPolygon (polys.map fun poly => poly.map (List.map reflectP))

/-- The state correspondence the label-swap claim induces on the sweep:
negate the orientation, exchange the two candidates, reflect them. -/
def reflectSwap (st : SweepSt) : SweepSt :=
  ⟨st.eprev.map (fun e => -e), st.ltan.map reflectP, st.rtan.map reflectP⟩

theorem isLeft_reflect (p1 p2 p3 : Point2D) :
    isLeft (reflectP p1) (reflectP p2) (reflectP p3) = -isLeft p1 p2 p3 := by
  simp only [isLeft, reflectP]
  ring

theorem isBelowO_reflect (pt c : Point2D) (o : Option Point2D) :
    isBelowO (reflectP pt) (reflectP c) (o.map reflectP) = isAboveO pt c o := by
  cases o with
  | none => rfl
  | some q =>
    simp [isBelowO, isAboveO, isBelow, isAbove, isLeft_reflect]

theorem isAboveO_reflect (pt c : Point2D) (o : Option Point2D) :
    isAboveO (reflectP pt) (reflectP c) (o.map reflectP) = isBelowO pt c o := by
  cases o with
  | none => rfl
  | some q =>
    simp [isBelowO, isAboveO, isBelow, isAbove, isLeft_reflect]

/-- Claim C9 (amended): reflecting across the x-axis negates the
orientation predicate and exchanges the roles of the two tangent
candidates, and one sweep step commutes with this
reflection-and-label-swap provided both the incoming orientation state
and the edge orientation are nonzero.  (At zero orientations the `≤`/`>`
thresholds of the two rules are not mirror images, and the full
label-swap property of `polygonTangents` fails; see the
counterexample.) -/
theorem claim_C9_amended (pt c n : Point2D) (st : SweepSt) (e : ℤ)
    (hst : st.eprev = some e) (he : e ≠ 0) (hn : isLeft c n pt ≠ 0) :
    stepEdge (reflectP pt) (reflectSwap st) (reflectP c, reflectP n) =
      reflectSwap (stepEdge pt st (c, n)) := by
  obtain ⟨e0, r, l⟩ := st
  simp only at hst
  subst hst
  have hL := isLeft_reflect c n pt
  rcases lt_or_gt_of_ne he with hneg | hpos <;>
    rcases lt_or_gt_of_ne hn with hLneg | hLpos
  · simp [stepEdge, reflectSwap, eprevLE0, eprevGT0, hL,
      isBelowO_reflect, isAboveO_reflect, hneg, le_of_lt hneg,
      not_le.mpr hneg, not_lt.mpr (le_of_lt hneg), hLneg, le_of_lt hLneg,
      not_le.mpr hLneg, not_lt.mpr (le_of_lt hLneg)]
  · simp [stepEdge, reflectSwap, eprevLE0, eprevGT0, hL,
      isBelowO_reflect, isAboveO_reflect, hneg, le_of_lt hneg,
      not_le.mpr hneg, not_lt.mpr (le_of_lt hneg), hLpos, le_of_lt hLpos,
      not_le.mpr hLpos, not_lt.mpr (le_of_lt hLpos)] <;>
      cases hb : isBelowO pt c r <;> simp [hb, reflectSwap]
  · simp [stepEdge, reflectSwap, eprevLE0, eprevGT0, hL,
      isBelowO_reflect, isAboveO_reflect, hpos, le_of_lt hpos,
      not_le.mpr hpos, not_lt.mpr (le_of_lt hpos), hLneg, le_of_lt hLneg,
      not_le.mpr hLneg, not_lt.mpr (le_of_lt hLneg)] <;>
      cases ha : isAboveO pt c l <;> simp [ha, reflectSwap]
  · simp [stepEdge, reflectSwap, eprevLE0, eprevGT0, hL,
      isBelowO_reflect, isAboveO_reflect, hpos,
      not_le.mpr hpos, not_lt.mpr (le_of_lt hpos), hLpos,
      not_le.mpr hLpos, not_lt.mpr (le_of_lt hLpos)]

/-- Claim C9 (witness): instance of the step commutation at a concrete
nonzero state and edge. -/
theorem claim_C9_witness :
    stepEdge (reflectP ⟨0, 1⟩) (reflectSwap ⟨some 1, some ⟨5, 5⟩, some ⟨6, 6⟩⟩)
        (reflectP ⟨2, 0⟩, reflectP ⟨3, 0⟩) =
      reflectSwap (stepEdge ⟨0, 1⟩ ⟨some 1, some ⟨5, 5⟩, some ⟨6, 6⟩⟩ (⟨2, 0⟩, ⟨3, 0⟩)) :=
  claim_C9_amended ⟨0, 1⟩ ⟨2, 0⟩ ⟨3, 0⟩ ⟨some 1, some ⟨5, 5⟩, some ⟨6, 6⟩⟩ 1 rfl
    (by decide) (by decide)

/-- Claim C9 (counterexample): for the clockwise square
`(0,0), (0,4), (4,4), (4,0), (0,0)` and reference point `(3,3)` (inside
the bounding box), reflecting every y-coordinate does not swap the two
tangent labels: the original input yields `((4,4), (0,0))`, so the swap
would require the reflected input to yield `((0,0), (4,-4))`, but it
yields `((0,0), (0,0))`. -/
theorem claim_C9_counterexample :
    reflectGeom (Geometry.polygon [[⟨0, 0⟩, ⟨0, 4⟩, ⟨4, 4⟩, ⟨4, 0⟩, ⟨0, 0⟩]]) =
        Geometry.polygon [[⟨0, 0⟩, ⟨0, -4⟩, ⟨4, -4⟩, ⟨4, 0⟩, ⟨0, 0⟩]] ∧
    polygonTangents ⟨3, 3⟩ (Geometry.polygon [[⟨0, 0⟩, ⟨0, 4⟩, ⟨4, 4⟩, ⟨4, 0⟩, ⟨0, 0⟩]]) =
        (some ⟨4, 4⟩, some ⟨0, 0⟩) ∧
    polygonTangents (reflectP ⟨3, 3⟩)
        (reflectGeom (Geometry.polygon [[⟨0, 0⟩, ⟨0, 4⟩, ⟨4, 4⟩, ⟨4, 0⟩, ⟨0, 0⟩]])) =
        (some ⟨0, 0⟩, some ⟨0, 0⟩) ∧
    ¬ polygonTangents (reflectP ⟨3, 3⟩)
        (reflectGeom (Geometry.polygon [[⟨0, 0⟩, ⟨0, 4⟩, ⟨4, 4⟩, ⟨4, 0⟩, ⟨0, 0⟩]])) =
      ((polygonTangents ⟨3, 3⟩
          (Geometry.polygon [[⟨0, 0⟩, ⟨0, 4⟩, ⟨4, 4⟩, ⟨4, 0⟩, ⟨0, 0⟩]])).2.map reflectP,
       (polygonTangents ⟨3, 3⟩
          (Geometry.polygon [[⟨0, 0⟩, ⟨0, 4⟩, ⟨4, 4⟩, ⟨4, 0⟩, ⟨0, 0⟩]])).1.map reflectP) := by
  exact ⟨by decide, by decide, by decide, by decide⟩

/-! ### The Polygon-branch seeding (claim C4) -/

/-- The Polygon branch as described by claim C4: the nearest-vertex
lookup is performed exactly when the reference point is strictly inside
the bounding box on both axes; `rtan` is seeded to the outer-ring vertex
at the nearest index (the first vertex when no lookup was performed);
`ltan` is seeded to the first vertex, except that when a lookup was
performed and the nearest vertex lies strictly below the reference
point, `ltan` is seeded to the nearest-index vertex as well; `eprev` is
seeded to `orientation(first vertex, last stored vertex, reference
point)`; then the ring sweep runs once over the outer ring. -/
def polygonBranchSpec (pt : Point2D) (rings : List (List Point2D)) :
    Option Point2D × Option Point2D :=
  let g := Geometry.polygon rings
  let outer := rings.headD []
  let performed := insideBBox pt g
  let flat := geomCoordsFlat g
  let n := if performed then nearestIdx pt flat else 0
  let rtan := outer.get? n
  let ltan :=
    if performed then
      match flat.get? (nearestIdx pt flat) with
      | some np => if np.y < pt.y then outer.get? n else outer.get? 0
      | none => outer.get? 0
    else outer.get? 0
  let eprev : Option ℤ :=
    match outer.get? 0, outer.get? (outer.length - 1) with
    | some a, some b => some (isLeft a b pt)
    | _, _ => none
  processPolygon outer pt eprev rtan ltan

/-- Claim C4: for every Polygon input and reference point, the resolver
behaves exactly as the seeding procedure of the specification
describes. -/
theorem claim_C4_seeding (pt : Point2D) (rings : List (List Point2D)) :
    polygonTangents pt (Geometry.polygon rings) = polygonBranchSpec pt rings := by
  unfold polygonTangents polygonBranchSpec
  cases h : insideBBox pt (Geometry.polygon rings) <;> simp [h]

/-! ### The MultiPolygon orientation seed and state threading (claim C6) -/

/-- The MultiPolygon resolver as claim C6 states it: identical to the
translation of the source except that `eprev` is seeded with
`orientation(first vertex of the first polygon's outer ring, last
stored vertex of that ring, reference point)`. -/
def multiTangentsClaimC6 (pt : Point2D) (polys : List (List (List Point2D))) :
    Option Point2D × Option Point2D :=
  let g := Geometry.multiPolygon polys
  let inside := insideBBox pt g
  let n := if inside then nearestIdx pt (geomCoordsFlat g) else 0
  let seed := multiSeed n polys
  let ring0 := (polys.headD []).headD []
  let eprev : Option ℤ :=
    match ring0.get? 0, ring0.get? (ring0.length - 1) with
    | some a, some b => some (isLeft a b pt)
    | _, _ => none
  polys.foldl (fun s poly => processPolygon (poly.headD []) pt eprev s.1 s.2)
    (seed, seed)

/-- Claim C6 (counterexample): for the MultiPolygon consisting of the
single closed square `(0,0), (4,0), (4,4), (0,4), (0,0)` and reference
point `(3,1)`, seeding `eprev` with the orientation of (first vertex,
last stored vertex, reference point) — as the claim states — yields
right tangent `(0,0)`, while the code (whose seed is the `NaN` of a
type-confused `isLeft` call on the ring array itself) yields right
tangent `(4,0)`. -/
theorem claim_C6_counterexample :
    multiTangentsClaimC6 ⟨3, 1⟩ [[[⟨0, 0⟩, ⟨4, 0⟩, ⟨4, 4⟩, ⟨0, 4⟩, ⟨0, 0⟩]]] =
        (some ⟨0, 0⟩, some ⟨4, 0⟩) ∧
    polygonTangents ⟨3, 1⟩
        (Geometry.multiPolygon [[[⟨0, 0⟩, ⟨4, 0⟩, ⟨4, 4⟩, ⟨0, 4⟩, ⟨0, 0⟩]]]) =
        (some ⟨4, 0⟩, some ⟨4, 0⟩) ∧
    multiTangentsClaimC6 ⟨3, 1⟩ [[[⟨0, 0⟩, ⟨4, 0⟩, ⟨4, 4⟩, ⟨0, 4⟩, ⟨0, 0⟩]]] ≠
      polygonTangents ⟨3, 1⟩
        (Geometry.multiPolygon [[[⟨0, 0⟩, ⟨4, 0⟩, ⟨4, 4⟩, ⟨0, 4⟩, ⟨0, 0⟩]]]) := by
  exact ⟨by decide, by decide, by decide⟩

/-- The MultiPolygon sweep as the amended claim C6 describes it: the
`(rtan, ltan)` pair threads from one outer-ring sweep to the next, while
every ring's sweep starts from the same single orientation seed
`seedE`, not from the orientation state its predecessor ended with. -/
def multiSweepSpec (pt : Point2D) (seedE : Option ℤ)
    (st0 : Option Point2D × Option Point2D)
    (polys : List (List (List Point2D))) : Option Point2D × Option Point2D :=
  polys.foldl
    (fun s poly =>
      ((sweepRingSpec pt (edgesSpec (poly.headD [])) ⟨seedE, s.1, s.2⟩).rtan,
       (sweepRingSpec pt (edgesSpec (poly.headD [])) ⟨seedE, s.1, s.2⟩).ltan))
    st0

/-- Claim C6 (amended): for every MultiPolygon, the sweep runs once over
each polygon's outer ring in input order, each ring's sweep receives the
`(rtan, ltan)` produced by the previous ring together with one shared
orientation seed (never the orientation state reached at the end of the
previous ring); but that shared seed is not
`orientation(first vertex, last stored vertex, reference point)` — it is
the `NaN` of an `isLeft` call whose first argument is the ring array
itself, a value satisfying neither `eprev ≤ 0` nor `eprev > 0`. -/
theorem claim_C6_amended (pt : Point2D) (polys : List (List (List Point2D))) :
    eprevLE0 none = false ∧ eprevGT0 none = false ∧
    polygonTangents pt (Geometry.multiPolygon polys) =
      multiSweepSpec pt none
        (multiSeed
          (if insideBBox pt (Geometry.multiPolygon polys) then
            nearestIdx pt (geomCoordsFlat (Geometry.multiPolygon polys))
          else 0) polys,
         multiSeed
          (if insideBBox pt (Geometry.multiPolygon polys) then
            nearestIdx pt (geomCoordsFlat (Geometry.multiPolygon polys))
          else 0) polys) polys := by
  refine ⟨rfl, rfl, ?_⟩
  simp only [polygonTangents, multiSweepSpec]
  congr 1
  funext s poly
  rw [processPolygon_eq_foldl, sweepRingSpec_eq_foldl, edgesSpec_eq_ringEdges]

/-! ### Concrete geometries for the remaining claims -/

/-- Clockwise outer square of side 10. -/
def holeOuterRing : List Point2D := [⟨0, 0⟩, ⟨0, 10⟩, ⟨10, 10⟩, ⟨10, 0⟩, ⟨0, 0⟩]

/-- Hole ring of side 2 centred at `(5,5)`. -/
def holeInnerRing : List Point2D := [⟨4, 4⟩, ⟨4, 6⟩, ⟨6, 6⟩, ⟨6, 4⟩, ⟨4, 4⟩]

/-- A polygon with one hole. -/
def gHolePoly : Geometry := Geometry.polygon [holeOuterRing, holeInnerRing]

/-- First unit-4 square of the two-square MultiPolygon. -/
def sqA : List Point2D := [⟨0, 0⟩, ⟨4, 0⟩, ⟨4, 4⟩, ⟨0, 4⟩, ⟨0, 0⟩]

/-- Second, disjoint square. -/
def sqB : List Point2D := [⟨10, 0⟩, ⟨14, 0⟩, ⟨14, 4⟩, ⟨10, 4⟩, ⟨10, 0⟩]

/-- MultiPolygon of the two disjoint squares. -/
def gTwoSquares : Geometry := Geometry.multiPolygon [[sqA], [sqB]]

/-- Claim C3 (evaluation at the failing input): for the two disjoint
squares and reference point `(11,1)` (strictly inside the combined
bounding box, nearest to vertex `(10,0)` of the second square at
flattened index 5), the resolver's walk — which runs over the rings of
the *first* polygon only — never reaches index 5 and seeds the sweep
with `(0,0)`, a vertex of the first square, not a vertex of the second
square's ring as the claim requires. -/
theorem claim_C3_failing :
    insideBBox ⟨11, 1⟩ gTwoSquares = true ∧
    nearestIdx ⟨11, 1⟩ (geomCoordsFlat gTwoSquares) = 5 ∧
    (geomCoordsFlat gTwoSquares).get? 5 = some ⟨10, 0⟩ ∧
    (⟨10, 0⟩ : Point2D) ∈ sqB ∧
    multiSeed 5 [[sqA], [sqB]] = some ⟨0, 0⟩ ∧
    ¬ (⟨0, 0⟩ : Point2D) ∈ sqB ∧
    (⟨0, 0⟩ : Point2D) ∈ sqA := by
  exact ⟨by decide, by decide, by decide, by decide, by decide, by decide, by decide⟩

/-- Claim C10: for the polygon with a hole and reference point `(5,5)`
strictly inside the bounding box, the nearest vertex over the flattened
vertex list is `(4,4)`, a hole vertex at flattened index 5; the outer
ring stores only 5 vertices, so the Polygon branch's seed lookups
`outer[5]` are out of bounds and, in this total embedding, yield no
vertex; the nearest vertex lies below the reference point, so both
seeds are absent, and the sweep (the point being inside a clockwise
ring, no right-tangent sign change ever fires) returns no vertex at
all. -/
theorem claim_C10_out_of_bounds :
    insideBBox ⟨5, 5⟩ gHolePoly = true ∧
    nearestIdx ⟨5, 5⟩ (geomCoordsFlat gHolePoly) = 5 ∧
    (geomCoordsFlat gHolePoly).get? 5 = some ⟨4, 4⟩ ∧
    (⟨4, 4⟩ : Point2D) ∈ holeInnerRing ∧
    holeOuterRing.length ≤ 5 ∧
    holeOuterRing.get? 5 = none ∧
    (4 : ℤ) < 5 ∧
    polygonTangents ⟨5, 5⟩ gHolePoly = (none, none) := by
  exact ⟨by decide, by decide, by decide, by decide, by decide, by decide, by decide,
    by decide⟩

/-- Claim C1 (evaluation at the failing input): at the polygon with a
hole and reference point `(5,5)`, `polygonTangents` returns no vertex
in either position — the vertex-membership invariant fails: there is no
pair of geometry vertices being returned at all. -/
theorem claim_C1_failing :
    polygonTangents ⟨5, 5⟩ gHolePoly = (none, none) ∧
    ¬ ∃ p q : Point2D, polygonTangents ⟨5, 5⟩ gHolePoly = (some p, some q) := by
  have h : polygonTangents ⟨5, 5⟩ gHolePoly = (none, none) := by decide
  refine ⟨h, ?_⟩
  rintro ⟨p, q, hpq⟩
  rw [h] at hpq
  simp at hpq
